import Mathlib

/-!
Verification of the `pondo` task-tracking CLI (src/src/index.ts, src/src/index.js,
src/src/types.ts) against its natural-language specification.

The program keeps all state in one JSON file (`~/.pondo/tasks.json`) holding an
array of task records, plus the containing directory.  We embed that filesystem
state shallowly as `FsState`: a flag for whether the config directory exists and
an `Option (List Task)` for the tasks file (`none` = file absent, `some ts` =
file present and parsed).  Each CLI operation (`init`, `add`, `done`) becomes a
pure function from `FsState` to `FsState` paired with the reported outcome.
Ambient effects are made explicit parameters: the pseudo-random draw of
`Math.random()` becomes a natural number `r` (the 53-bit mantissa, the drawn
double being `r / 2^53`), and `new Date().toISOString()` becomes a string
parameter `now`.
-/

namespace PonDo

/-- One task record, mirroring the `Task` interface of src/src/types.ts:
`id`, `name`, `done`, `createdAt`, and the optional `completedAt`. -/
structure Task where
  id : String
  name : String
  done : Bool
  createdAt : String
  completedAt : Option String
deriving DecidableEq

/-- The filesystem state the program touches: whether `~/.pondo` exists and the
content of `~/.pondo/tasks.json` (`none` when the file is absent).  Only
well-formed contents (a JSON array of task records) are modelled; the claims
under study never exercise the corrupt-JSON path. -/
structure FsState where
  configDirExists : Bool
  tasksFile : Option (List Task)
deriving DecidableEq

/-- Outcome reported by `init`. -/
inductive InitResult where
  | alreadyInit
  | freshInit
deriving DecidableEq

/-- Outcome reported by `add`. -/
inductive AddResult where
  | validationFailed
  | loadFailed
  | added (name : String) (id : String)
deriving DecidableEq

/-- Outcome reported by `done`. -/
inductive DoneResult where
  | validationFailed
  | loadFailed
  | notFound (id : String)
  | marked (name : String)
deriving DecidableEq

/-- Base-36 digit character, as produced by JavaScript `Number.prototype.toString(36)`:
`0`–`9` then lowercase `a`–`z`. -/
def jsDigitChar (d : Nat) : Char :=
  if d < 10 then Char.ofNat (48 + d) else Char.ofNat (87 + d)

/-- Fractional base-36 digits of `num / 2^53`, most significant first, stopping
when the remainder is zero.  Since `36 = 2^2 * 9`, the expansion of a dyadic
rational with denominator `2^53` terminates within 27 digits, so the fuel of 60
used below never runs out. -/
def base36FracDigits : Nat → Nat → List Char
  | 0, _ => []
  | fuel + 1, num =>
    if num = 0 then []
    else jsDigitChar (num * 36 / 2 ^ 53) :: base36FracDigits fuel (num * 36 % 2 ^ 53)

/-- JavaScript `x.toString(36)` for `x = r / 2^53` in `[0, 1)` — the range of
`Math.random()`: `"0"` for zero, otherwise `"0."` followed by the base-36
fractional expansion of the dyadic rational. -/
def jsNumToString36 (r : Nat) : String :=
  if r = 0 then "0" else "0." ++ String.mk (base36FracDigits 60 r)

/-- JavaScript `String.prototype.substr(start, length)`: the chunk of up to
`length` characters starting at index `start` (empty when `start` is past the
end). -/
def jsSubstr (s : String) (start len : Nat) : String :=
  String.mk ((s.data.drop start).take len)

/-- JavaScript `String.prototype.toUpperCase()` on the ASCII range. -/
def jsToUpper (s : String) : String :=
  String.mk (s.data.map Char.toUpper)

/-- JavaScript `String.prototype.trim()`: strip leading and trailing
whitespace. -/
def jsTrim (s : String) : String :=
  String.mk (((s.data.dropWhile Char.isWhitespace).reverse.dropWhile
    Char.isWhitespace).reverse)

/-- `PonDo.generateId` (src/src/index.ts:165–167):
`'T' + Math.random().toString(36).substr(2, 3).toUpperCase()`, with the random
draw represented by its 53-bit mantissa `r` (the double is `r / 2^53`). -/
def generateId (r : Nat) : String :=
  "T" ++ jsToUpper (jsSubstr (jsNumToString36 r) 2 3)

/-- `PonDo.loadTasks` (src/src/index.ts:152–159): returns the parsed list, or
fails (`none`, modelling the thrown error) when the tasks file does not
exist. -/
def loadTasks (s : FsState) : Option (List Task) :=
  s.tasksFile

/-- `PonDo.saveTasks` (src/src/index.ts:161–163): overwrite the tasks file with
the serialized list. -/
def saveTasks (s : FsState) (tasks : List Task) : FsState :=
  { s with tasksFile := some tasks }

/-- `PonDo.init` (src/src/index.ts:58–81): if both the config directory and the
tasks file exist, report "already initialized" and change nothing; otherwise
create the directory if missing and the empty tasks file if missing. -/
def init (s : FsState) : FsState × InitResult :=
  let configExists := s.configDirExists
  let tasksExists := s.tasksFile.isSome
  if configExists && tasksExists then
    (s, .alreadyInit)
  else
    let s1 : FsState := if configExists then s else { s with configDirExists := true }
    let s2 : FsState := if tasksExists then s1 else { s1 with tasksFile := some [] }
    (s2, .freshInit)

/-- `PonDo.add` (src/src/index.ts:83–105): reject a name whose trimmed form is
empty before any store access; otherwise load, append a fresh task (generated
id, trimmed name, `done = false`, `createdAt = now`, no `completedAt`), and
save. -/
def add (s : FsState) (taskName : String) (r : Nat) (now : String) : FsState × AddResult :=
  if jsTrim taskName = "" then
    (s, .validationFailed)
  else
    match loadTasks s with
    | none => (s, .loadFailed)
    | some tasks =>
      let newTask : Task :=
        { id := generateId r, name := jsTrim taskName, done := false,
          createdAt := now, completedAt := none }
      (saveTasks s (tasks ++ [newTask]), .added newTask.name newTask.id)

/-- The in-place mutation performed by `PonDo.done` on the array returned by
`loadTasks`: the first task whose id matches is given `done = true` and
`completedAt = now`; every other element is kept as is (src/src/index.ts:135,
142–143 — `find` returns a reference into the array, which is then mutated and
the whole array saved). -/
def markFirst : List Task → String → String → List Task
  | [], _, _ => []
  | t :: rest, taskId, now =>
    if t.id = taskId then
      { t with done := true, completedAt := some now } :: rest
    else
      t :: markFirst rest taskId now

/-- `PonDo.done` (src/src/index.ts:127–150): reject an empty id (`!taskId`);
load the list; report not-found without saving when no task matches; otherwise
mutate the first match in place and save the whole list. -/
def done (s : FsState) (taskId : String) (now : String) : FsState × DoneResult :=
  if taskId = "" then
    (s, .validationFailed)
  else
    match loadTasks s with
    | none => (s, .loadFailed)
    | some tasks =>
      match tasks.find? (fun t => t.id == taskId) with
      | none => (s, .notFound taskId)
      | some t => (saveTasks s (markFirst tasks taskId now), .marked t.name)

/-- Store states reachable by the program: the store freshly created by `init`
on an empty home directory, followed by any sequence of `add` and `done`
invocations (with arbitrary user input, random draws and clock readings). -/
inductive Reachable : FsState → Prop
  | base : Reachable (init { configDirExists := false, tasksFile := none }).1
  | step_add (s : FsState) (taskName : String) (r : Nat) (now : String) :
      Reachable s → Reachable (add s taskName r now).1
  | step_done (s : FsState) (taskId : String) (now : String) :
      Reachable s → Reachable (done s taskId now).1

/-- Every generated id starts with the fixed prefix, so it is never the empty
string. -/
theorem generateId_ne_empty (r : Nat) : generateId r ≠ "" := by
  intro h
  have hlen := congrArg String.length h
  rw [generateId, String.length_append] at hlen
  have h1 : ("T" : String).length = 1 := rfl
  have h0 : ("" : String).length = 0 := rfl
  rw [h1, h0] at hlen
  omega

/-- `markFirst` rewrites exactly the first matching task and keeps the rest of
the list intact. -/
theorem markFirst_first (pre : List Task) (t : Task) (post : List Task)
    (taskId now : String) (hpre : ∀ u ∈ pre, u.id ≠ taskId) (ht : t.id = taskId) :
    markFirst (pre ++ t :: post) taskId now
      = pre ++ { t with done := true, completedAt := some now } :: post := by
  induction pre with
  | nil => simp [markFirst, ht]
  | cons u pre' ih =>
    simp only [List.cons_append, markFirst]
    rw [if_neg (hpre u (List.mem_cons_self u pre'))]
    exact congrArg (List.cons u) (ih (fun v hv => hpre v (List.mem_cons_of_mem u hv)))

/-- `List.find?` locates the first match past a matchless preamble. -/
theorem find?_first (pre : List Task) (t : Task) (post : List Task) (taskId : String)
    (hpre : ∀ u ∈ pre, u.id ≠ taskId) (ht : t.id = taskId) :
    (pre ++ t :: post).find? (fun u => u.id == taskId) = some t := by
  induction pre with
  | nil =>
    simp only [List.nil_append]
    exact List.find?_cons_of_pos _ (by simp [ht])
  | cons u pre' ih =>
    simp only [List.cons_append]
    rw [List.find?_cons_of_neg _ (by simpa using hpre u (List.mem_cons_self u pre'))]
    exact ih (fun v hv => hpre v (List.mem_cons_of_mem u hv))

/-- Every id in the output of `markFirst` was already an id in the input. -/
theorem markFirst_mem_id (ts : List Task) (taskId now : String) :
    ∀ u ∈ markFirst ts taskId now, ∃ t ∈ ts, u.id = t.id := by
  induction ts with
  | nil => intro u hu; simp [markFirst] at hu
  | cons t rest ih =>
    intro u hu
    simp only [markFirst] at hu
    by_cases hid : t.id = taskId
    · rw [if_pos hid] at hu
      rcases List.mem_cons.mp hu with h1 | h1
      · exact ⟨t, List.mem_cons_self t rest, by rw [h1]⟩
      · exact ⟨u, List.mem_cons_of_mem t h1, rfl⟩
    · rw [if_neg hid] at hu
      rcases List.mem_cons.mp hu with h1 | h1
      · exact ⟨t, List.mem_cons_self t rest, by rw [h1]⟩
      · rcases ih u h1 with ⟨v, hv, hv2⟩
        exact ⟨v, List.mem_cons_of_mem t hv, hv2⟩

/-- `markFirst` preserves the completedAt-iff-done record invariant. -/
theorem markFirst_completed (ts : List Task) (taskId now : String)
    (h : ∀ t ∈ ts, t.completedAt.isSome = t.done) :
    ∀ u ∈ markFirst ts taskId now, u.completedAt.isSome = u.done := by
  induction ts with
  | nil => intro u hu; simp [markFirst] at hu
  | cons t rest ih =>
    intro u hu
    simp only [markFirst] at hu
    by_cases hid : t.id = taskId
    · rw [if_pos hid] at hu
      rcases List.mem_cons.mp hu with h1 | h1
      · rw [h1]; rfl
      · exact h u (List.mem_cons_of_mem t h1)
    · rw [if_neg hid] at hu
      rcases List.mem_cons.mp hu with h1 | h1
      · rw [h1]; exact h t (List.mem_cons_self t rest)
      · exact ih (fun v hv => h v (List.mem_cons_of_mem t hv)) u h1

/-- `add` either leaves the state untouched (validation or load failure) or
appends exactly the freshly constructed task. -/
theorem add_state_cases (s : FsState) (taskName : String) (r : Nat) (now : String) :
    (add s taskName r now).1 = s ∨
      ∃ ts, s.tasksFile = some ts ∧
        (add s taskName r now).1
          = { s with tasksFile := some (ts ++
              [{ id := generateId r, name := jsTrim taskName, done := false,
                 createdAt := now, completedAt := none }]) } := by
  by_cases h : jsTrim taskName = ""
  · left; simp [add, h]
  · cases hts : s.tasksFile with
    | none => left; simp [add, h, loadTasks, hts]
    | some ts => right; exact ⟨ts, rfl, by simp [add, h, loadTasks, hts, saveTasks]⟩

/-- `done` either leaves the state untouched (validation, load failure or
not-found) or saves the `markFirst` rewrite of the loaded list. -/
theorem done_state_cases (s : FsState) (taskId now : String) :
    (done s taskId now).1 = s ∨
      ∃ ts, s.tasksFile = some ts ∧
        (done s taskId now).1 = { s with tasksFile := some (markFirst ts taskId now) } := by
  by_cases h : taskId = ""
  · left; simp [done, h]
  · cases hts : s.tasksFile with
    | none => left; simp [done, h, loadTasks, hts]
    | some ts =>
      cases hf : ts.find? (fun t => t.id == taskId) with
      | none => left; simp [done, h, loadTasks, hts, hf]
      | some t => right; exact ⟨ts, rfl, by simp [done, h, loadTasks, hts, hf, saveTasks]⟩

/-- Store invariant: in every reachable store, `completedAt` is present exactly
on the tasks marked `done`. -/
theorem reachable_completed {s : FsState} (hs : Reachable s) :
    ∀ ts, s.tasksFile = some ts → ∀ t ∈ ts, t.completedAt.isSome = t.done := by
  induction hs with
  | base =>
    intro ts hts t ht
    have h2 : some ([] : List Task) = some ts := hts
    rw [← Option.some.inj h2] at ht
    exact absurd ht (List.not_mem_nil t)
  | step_add s1 taskName r now hr ih =>
    intro ts hts t ht
    rcases add_state_cases s1 taskName r now with he | ⟨ts0, hts0, he⟩
    · rw [he] at hts; exact ih ts hts t ht
    · rw [he] at hts
      have h2 := Option.some.inj hts
      rw [← h2] at ht
      rcases List.mem_append.mp ht with h1 | h1
      · exact ih ts0 hts0 t h1
      · rw [List.mem_singleton.mp h1]; rfl
  | step_done s1 taskId now hr ih =>
    intro ts hts t ht
    rcases done_state_cases s1 taskId now with he | ⟨ts0, hts0, he⟩
    · rw [he] at hts; exact ih ts hts t ht
    · rw [he] at hts
      have h2 := Option.some.inj hts
      rw [← h2] at ht
      exact markFirst_completed ts0 taskId now (ih ts0 hts0) t ht

/-- Store invariant: no reachable store contains a task with an empty id (every
id carries the generated `"T"` prefix). -/
theorem reachable_id_ne_empty {s : FsState} (hs : Reachable s) :
    ∀ ts, s.tasksFile = some ts → ∀ t ∈ ts, t.id ≠ "" := by
  induction hs with
  | base =>
    intro ts hts t ht
    have h2 : some ([] : List Task) = some ts := hts
    rw [← Option.some.inj h2] at ht
    exact absurd ht (List.not_mem_nil t)
  | step_add s1 taskName r now hr ih =>
    intro ts hts t ht
    rcases add_state_cases s1 taskName r now with he | ⟨ts0, hts0, he⟩
    · rw [he] at hts; exact ih ts hts t ht
    · rw [he] at hts
      have h2 := Option.some.inj hts
      rw [← h2] at ht
      rcases List.mem_append.mp ht with h1 | h1
      · exact ih ts0 hts0 t h1
      · rw [List.mem_singleton.mp h1]
        exact generateId_ne_empty r
  | step_done s1 taskId now hr ih =>
    intro ts hts t ht
    rcases done_state_cases s1 taskId now with he | ⟨ts0, hts0, he⟩
    · rw [he] at hts; exact ih ts hts t ht
    · rw [he] at hts
      have h2 := Option.some.inj hts
      rw [← h2] at ht
      rcases markFirst_mem_id ts0 taskId now t ht with ⟨v, hv, hv2⟩
      rw [hv2]
      exact ih ts0 hts0 v hv

/-- C1: the claim states that `generateId()` always returns exactly 4
characters (`T` plus 3 uppercase alphanumerics).  The code
`'T' + Math.random().toString(36).substr(2, 3).toUpperCase()` violates this
whenever the drawn double's base-36 expansion has fewer than 3 fractional
digits: at `Math.random() = 0` the id is `"T"` (length 1), and at
`Math.random() = 0.5` (mantissa `2^52`, base-36 string `"0.i"`) it is `"TI"`
(length 2).  The repository's own test regenerates the 4-character shape as a
regular expression on the id, so the short ids contradict the code's own test
suite: a code bug, not a spec error. -/
theorem C1_generateId_short_id :
    generateId 0 = "T" ∧ (generateId 0).length = 1
      ∧ generateId (2 ^ 52) = "TI" ∧ (generateId (2 ^ 52)).length = 2 := by
  refine ⟨by decide, by decide, by decide, by decide⟩

/-- C2: in every store state reachable from the freshly initialized empty list
by any sequence of `add` and `done` calls, every stored task has `completedAt`
present if and only if `done` is true. -/
theorem C2_completedAt_iff_done (s : FsState) (hs : Reachable s) (ts : List Task)
    (hts : s.tasksFile = some ts) (t : Task) (ht : t ∈ ts) :
    t.completedAt.isSome = t.done :=
  reachable_completed hs ts hts t ht

theorem C2_witness :
    ({ id := generateId 0, name := "hello", done := false,
       createdAt := "2024-01-01T00:00:00.000Z",
       completedAt := none } : Task).completedAt.isSome
      = ({ id := generateId 0, name := "hello", done := false,
           createdAt := "2024-01-01T00:00:00.000Z",
           completedAt := none } : Task).done :=
  C2_completedAt_iff_done
    (add (init { configDirExists := false, tasksFile := none }).1 "hello" 0
      "2024-01-01T00:00:00.000Z").1
    (Reachable.step_add _ _ _ _ Reachable.base)
    [{ id := generateId 0, name := "hello", done := false,
       createdAt := "2024-01-01T00:00:00.000Z", completedAt := none }]
    (by decide) _ (by decide)

/-- C3: for any string whose trimmed form is non-empty and any initialized
store, `add` appends exactly one new record carrying the trimmed name,
`done = false` and no `completedAt`, so the stored count grows by exactly
one. -/
theorem C3_add_appends_one (s : FsState) (ts : List Task) (hts : s.tasksFile = some ts)
    (nm : String) (hnm : jsTrim nm ≠ "") (r : Nat) (now : String) :
    (add s nm r now).1.tasksFile
        = some (ts ++ [({ id := generateId r, name := jsTrim nm, done := false,
                          createdAt := now, completedAt := none } : Task)])
      ∧ (ts ++ [({ id := generateId r, name := jsTrim nm, done := false,
                   createdAt := now, completedAt := none } : Task)]).length
          = ts.length + 1 := by
  constructor
  · simp [add, hnm, loadTasks, hts, saveTasks]
  · simp

theorem C3_witness :
    (add { configDirExists := true, tasksFile := some [] } " report " 0
        "2024-01-02T00:00:00.000Z").1.tasksFile
        = some (([] : List Task) ++
            [({ id := generateId 0, name := jsTrim " report ", done := false,
                createdAt := "2024-01-02T00:00:00.000Z", completedAt := none } : Task)])
      ∧ (([] : List Task) ++
            [({ id := generateId 0, name := jsTrim " report ", done := false,
                createdAt := "2024-01-02T00:00:00.000Z", completedAt := none } : Task)]).length
          = ([] : List Task).length + 1 :=
  C3_add_appends_one { configDirExists := true, tasksFile := some [] } [] rfl
    " report " (by decide) 0 "2024-01-02T00:00:00.000Z"

/-- C5: for a non-empty id matching no stored task, `done` reports not-found
and the state — in particular the stored list — is exactly unchanged (no save
happens). -/
theorem C5_done_not_found (s : FsState) (ts : List Task) (taskId now : String)
    (hid : taskId ≠ "") (hts : s.tasksFile = some ts)
    (hnone : ∀ t ∈ ts, t.id ≠ taskId) :
    (done s taskId now).1 = s ∧ (done s taskId now).2 = .notFound taskId := by
  have hf : ts.find? (fun t => t.id == taskId) = none :=
    List.find?_eq_none.mpr (fun t ht => by simpa using hnone t ht)
  constructor <;> simp [done, hid, loadTasks, hts, hf]

theorem C5_witness :
    (done { configDirExists := true, tasksFile := some [] } "TZZZ" "t1").1
        = { configDirExists := true, tasksFile := some [] }
      ∧ (done { configDirExists := true, tasksFile := some [] } "TZZZ" "t1").2
        = .notFound "TZZZ" :=
  C5_done_not_found { configDirExists := true, tasksFile := some [] } [] "TZZZ" "t1"
    (by decide) rfl (fun t ht => absurd ht (List.not_mem_nil t))

/-- C6: for any input whose trimmed form is empty, `add` reports a validation
failure and returns the state untouched; the statement holds for every state,
including uninitialized ones (tasks file absent), which captures that neither
load nor save is ever attempted on this path. -/
theorem C6_add_empty_name (s : FsState) (nm : String) (hnm : jsTrim nm = "")
    (r : Nat) (now : String) :
    (add s nm r now).1 = s ∧ (add s nm r now).2 = .validationFailed := by
  constructor <;> simp [add, hnm]

theorem C6_witness :
    (add { configDirExists := true, tasksFile := some [] } "   " 0 "t1").1
        = { configDirExists := true, tasksFile := some [] }
      ∧ (add { configDirExists := true, tasksFile := some [] } "   " 0 "t1").2
        = .validationFailed :=
  C6_add_empty_name { configDirExists := true, tasksFile := some [] } "   "
    (by decide) 0 "t1"

/-- C10: a whitespace-only id is non-empty, so `done` does not report a
validation failure: it proceeds to load the store, and when no task carries
that exact id the call is reported as not-found with the state unchanged. -/
theorem C10_done_whitespace_id (s : FsState) (ts : List Task) (taskId now : String)
    (hne : taskId ≠ "") (hws : ∀ c ∈ taskId.data, c.isWhitespace = true)
    (hts : s.tasksFile = some ts) (hnone : ∀ t ∈ ts, t.id ≠ taskId) :
    (done s taskId now).2 ≠ .validationFailed
      ∧ (done s taskId now).1 = s
      ∧ (done s taskId now).2 = .notFound taskId := by
  have hf : ts.find? (fun t => t.id == taskId) = none :=
    List.find?_eq_none.mpr (fun t ht => by simpa using hnone t ht)
  refine ⟨?_, ?_, ?_⟩ <;> simp [done, hne, loadTasks, hts, hf]

theorem C10_witness :
    (done { configDirExists := true, tasksFile := some [] } "   " "t1").2
        ≠ .validationFailed
      ∧ (done { configDirExists := true, tasksFile := some [] } "   " "t1").1
        = { configDirExists := true, tasksFile := some [] }
      ∧ (done { configDirExists := true, tasksFile := some [] } "   " "t1").2
        = .notFound "   " :=
  C10_done_whitespace_id { configDirExists := true, tasksFile := some [] } [] "   " "t1"
    (by decide) (by decide) rfl (fun t ht => absurd ht (List.not_mem_nil t))

/-- C4: in any reachable store whose list contains a task with id `taskId`
(written as a matchless preamble `pre`, the first match `t`, and a tail
`post`), `done` saves the list in which exactly that first match is given
`done = true` and `completedAt = now` (a non-empty timestamp), while `pre` and
`post` — every other task, all fields — are kept verbatim, and reports the
task's name.  The id of a stored task is never empty (it carries the generated
`"T"` prefix), so the emptiness guard cannot fire here. -/
theorem C4_done_marks_first_only (s : FsState) (hs : Reachable s)
    (ts pre post : List Task) (t : Task) (taskId now : String)
    (hts : s.tasksFile = some ts) (hsplit : ts = pre ++ t :: post)
    (hpre : ∀ u ∈ pre, u.id ≠ taskId) (hid : t.id = taskId) (hnow : now ≠ "") :
    (done s taskId now).1.tasksFile
        = some (pre ++ { t with done := true, completedAt := some now } :: post)
      ∧ (done s taskId now).2 = .marked t.name
      ∧ now ≠ "" := by
  have hmem : t ∈ ts := hsplit ▸ List.mem_append_right pre (List.mem_cons_self t post)
  have hne : taskId ≠ "" := by
    rw [← hid]; exact reachable_id_ne_empty hs ts hts t hmem
  have hf := find?_first pre t post taskId hpre hid
  have hm := markFirst_first pre t post taskId now hpre hid
  subst hsplit
  refine ⟨?_, ?_, hnow⟩ <;> simp [done, hne, loadTasks, hts, hf, hm, saveTasks]

theorem C4_witness :
    (done (add (init { configDirExists := false, tasksFile := none }).1
          "alpha" 0 "t1").1 "T" "t2").1.tasksFile
        = some (([] : List Task) ++
            ({ id := "T", name := "alpha", done := true, createdAt := "t1",
               completedAt := some "t2" } : Task) :: [])
      ∧ (done (add (init { configDirExists := false, tasksFile := none }).1
            "alpha" 0 "t1").1 "T" "t2").2 = .marked "alpha"
      ∧ ("t2" : String) ≠ "" :=
  C4_done_marks_first_only _
    (Reachable.step_add _ _ _ _ Reachable.base)
    [{ id := "T", name := "alpha", done := false, createdAt := "t1",
       completedAt := none }] [] []
    { id := "T", name := "alpha", done := false, createdAt := "t1",
      completedAt := none } "T" "t2"
    (by decide) rfl (fun u hu => absurd hu (List.not_mem_nil u)) rfl (by decide)

/-- C7: when a reachable store contains two or more tasks with the same id
(the first match `t` and a later duplicate `u` in `post`), `done` rewrites
exactly the first match in list order and keeps every other task — the later
duplicates included, since `post` is kept verbatim — unchanged. -/
theorem C7_done_first_of_duplicates (s : FsState) (hs : Reachable s)
    (ts pre post : List Task) (t u : Task) (taskId now : String)
    (hts : s.tasksFile = some ts) (hsplit : ts = pre ++ t :: post)
    (hpre : ∀ v ∈ pre, v.id ≠ taskId) (hid : t.id = taskId)
    (hu : u ∈ post) (huid : u.id = taskId) :
    (done s taskId now).1.tasksFile
        = some (pre ++ { t with done := true, completedAt := some now } :: post)
      ∧ (done s taskId now).2 = .marked t.name := by
  have hmem : t ∈ ts := hsplit ▸ List.mem_append_right pre (List.mem_cons_self t post)
  have hne : taskId ≠ "" := by
    rw [← hid]; exact reachable_id_ne_empty hs ts hts t hmem
  have hf := find?_first pre t post taskId hpre hid
  have hm := markFirst_first pre t post taskId now hpre hid
  subst hsplit
  constructor <;> simp [done, hne, loadTasks, hts, hf, hm, saveTasks]

theorem C7_witness :
    (done (add (add (init { configDirExists := false, tasksFile := none }).1
          "a" 0 "t1").1 "b" 0 "t2").1 "T" "t3").1.tasksFile
        = some (([] : List Task) ++
            ({ id := "T", name := "a", done := true, createdAt := "t1",
               completedAt := some "t3" } : Task) ::
              [{ id := "T", name := "b", done := false, createdAt := "t2",
                 completedAt := none }])
      ∧ (done (add (add (init { configDirExists := false, tasksFile := none }).1
            "a" 0 "t1").1 "b" 0 "t2").1 "T" "t3").2 = .marked "a" :=
  C7_done_first_of_duplicates _
    (Reachable.step_add _ _ _ _ (Reachable.step_add _ _ _ _ Reachable.base))
    [{ id := "T", name := "a", done := false, createdAt := "t1", completedAt := none },
     { id := "T", name := "b", done := false, createdAt := "t2", completedAt := none }]
    []
    [{ id := "T", name := "b", done := false, createdAt := "t2", completedAt := none }]
    { id := "T", name := "a", done := false, createdAt := "t1", completedAt := none }
    { id := "T", name := "b", done := false, createdAt := "t2", completedAt := none }
    "T" "t3"
    (by decide) rfl (fun v hv => absurd hv (List.not_mem_nil v)) rfl
    (List.mem_singleton.mpr rfl) rfl

/-- C8: `init` is a completing no-op once the store exists.  First conjunct:
with both the directory and the tasks file present it reports "already
initialized" and changes nothing.  Second conjunct: with only the directory
present it completes the partial state by creating the empty tasks file rather
than failing.  Third conjunct: a second `init` after a first one never touches
the state again — in particular the tasks file's content is not modified. -/
theorem C8_init_idempotent :
    (∀ ts : List Task,
        init { configDirExists := true, tasksFile := some ts }
          = ({ configDirExists := true, tasksFile := some ts }, .alreadyInit))
      ∧ init { configDirExists := true, tasksFile := none }
          = ({ configDirExists := true, tasksFile := some [] }, .freshInit)
      ∧ (∀ s : FsState, init (init s).1 = ((init s).1, .alreadyInit)) := by
  refine ⟨fun ts => rfl, rfl, fun s => ?_⟩
  obtain ⟨c, f⟩ := s
  cases c <;> cases f <;> rfl

/-- C9: calling `done` on a task that is already completed succeeds again: the
first match keeps `done = true`, its `completedAt` is overwritten with the
fresh timestamp `now` (the previous value `old` no longer occurs in the saved
record), and the call reports the task's name rather than an error. -/
theorem C9_done_overwrites_completed (s : FsState) (hs : Reachable s)
    (ts pre post : List Task) (t : Task) (taskId old now : String)
    (hts : s.tasksFile = some ts) (hsplit : ts = pre ++ t :: post)
    (hpre : ∀ v ∈ pre, v.id ≠ taskId) (hid : t.id = taskId)
    (hdone : t.done = true) (hold : t.completedAt = some old) :
    (done s taskId now).1.tasksFile
        = some (pre ++ { t with done := true, completedAt := some now } :: post)
      ∧ (done s taskId now).2 = .marked t.name := by
  have hmem : t ∈ ts := hsplit ▸ List.mem_append_right pre (List.mem_cons_self t post)
  have hne : taskId ≠ "" := by
    rw [← hid]; exact reachable_id_ne_empty hs ts hts t hmem
  have hf := find?_first pre t post taskId hpre hid
  have hm := markFirst_first pre t post taskId now hpre hid
  subst hsplit
  constructor <;> simp [done, hne, loadTasks, hts, hf, hm, saveTasks]

theorem C9_witness :
    (done (done (add (init { configDirExists := false, tasksFile := none }).1
          "a" 0 "t1").1 "T" "t2").1 "T" "t3").1.tasksFile
        = some (([] : List Task) ++
            ({ id := "T", name := "a", done := true, createdAt := "t1",
               completedAt := some "t3" } : Task) :: [])
      ∧ (done (done (add (init { configDirExists := false, tasksFile := none }).1
            "a" 0 "t1").1 "T" "t2").1 "T" "t3").2 = .marked "a" :=
  C9_done_overwrites_completed _
    (Reachable.step_done _ _ _ (Reachable.step_add _ _ _ _ Reachable.base))
    [{ id := "T", name := "a", done := true, createdAt := "t1",
       completedAt := some "t2" }] [] []
    { id := "T", name := "a", done := true, createdAt := "t1",
      completedAt := some "t2" } "T" "t2" "t3"
    (by decide) rfl (fun v hv => absurd hv (List.not_mem_nil v)) rfl rfl rfl

end PonDo
